import Mathlib

/-!
# SapMap backend — weather/yield correlation & prediction engine

A shallow embedding, in Lean 4, of the numerical core of the SapMap backend:

* `src/services/StatsService.js` — Pearson correlation per weather factor
  (`_calculateCorrelation`), ordinary-least-squares regression
  (`_linearRegression`, `_transpose`, `_matMul`, `_inverse`), the flow
  predictor (`getFlowPredictions`), the baseline predictor
  (`getTraditionalFlowPredictions`) and the coalescing cache around
  `getDetailedWeatherCorrelation`.
* `src/services/WeatherService.js` — `fetchFromOpenMeteo`, `getWeatherRange`.
* `WeatherCacheRepository` — `getCached` / `cache` / `getCachedRange`.

JavaScript numbers are modelled as exact rationals (`ℚ`); `Math.sqrt` is the
real square root, so values that pass through it live in `ℝ`.  `null` and
`undefined` are modelled with `Option`.  Calendar dates are day numbers (`ℤ`)
and timestamps are epoch milliseconds (`ℤ`).  `Math.round x = ⌊x + 1/2⌋`,
which is Mathlib's `round`.
-/

namespace SapMap

/-- JS `Math.round(x * 100) / 100` — round to 2 decimal places. -/
def round2 (q : ℚ) : ℚ := (round (q * 100) : ℤ) / 100

/-- JS `arr.reduce((a,b) => a+b, 0) / arr.length` (mean of a list). -/
def listAvg (l : List ℚ) : ℚ := l.sum / l.length

/-- `isSapFlowIdeal` (WeatherService.js:110-115): freezing night + warm day. -/
def isSapFlowIdeal (tempHigh tempLow : ℚ) (temperatureUnit : String) : Bool :=
  if temperatureUnit = "celsius" then
    decide (tempLow < 0 ∧ tempHigh > 44/10)
  else
    decide (tempLow < 32 ∧ tempHigh > 40)

/-! ## Pearson correlation (`StatsService._calculateCorrelation`, lines 331-378) -/

/-- Result shape `{ coefficient, strength, sampleSize }` of `_calculateCorrelation`. -/
structure CorrResult where
  coefficient : Option ℚ
  strength : String
  sampleSize : ℕ
deriving Repr, DecidableEq

/-- Lines 332-334: pair `xValues[i]` with `yValues[i]` and keep the pairs where
both entries are non-null numbers (`none` models `null`/`undefined`/`NaN`). -/
def validPairs (xs ys : List (Option ℚ)) : List (ℚ × ℚ) :=
  (xs.zip ys).filterMap fun p => p.1.bind fun x => p.2.map fun y => (x, y)

/-- Line 346/353: `numerator = Σ (xᵢ - x̄)(yᵢ - ȳ)` over the valid pairs. -/
def corrNumerator (ps : List (ℚ × ℚ)) : ℚ :=
  (ps.map fun p =>
    (p.1 - listAvg (ps.map Prod.fst)) * (p.2 - listAvg (ps.map Prod.snd))).sum

/-- Line 354: `denomX = Σ (xᵢ - x̄)²`. -/
def corrDenomX (ps : List (ℚ × ℚ)) : ℚ :=
  (ps.map fun p => (p.1 - listAvg (ps.map Prod.fst)) ^ 2).sum

/-- Line 355: `denomY = Σ (yᵢ - ȳ)²`. -/
def corrDenomY (ps : List (ℚ × ℚ)) : ℚ :=
  (ps.map fun p => (p.2 - listAvg (ps.map Prod.snd)) ^ 2).sum

/-- Lines 366-375: strength thresholds applied to `absCoef = |coefficient|`. -/
def strengthOfAbs (absCoef : ℚ) : String :=
  if absCoef ≥ 1/2 then "strong"
  else if absCoef ≥ 3/10 then "moderate"
  else if absCoef ≥ 1/10 then "weak"
  else "none"

/-- `StatsService._calculateCorrelation` (lines 331-378). -/
noncomputable def calculateCorrelation (xValues yValues : List (Option ℚ)) : CorrResult :=
  let ps := validPairs xValues yValues
  if ps.length < 3 then
    { coefficient := none, strength := "none", sampleSize := ps.length }
  else
    let numerator := corrNumerator ps
    let denominator := Real.sqrt ((corrDenomX ps : ℝ) * (corrDenomY ps : ℝ))
    if denominator = 0 then
      { coefficient := none, strength := "none", sampleSize := ps.length }
    else
      let coefficient : ℚ := (round ((numerator : ℝ) / denominator * 100) : ℤ) / 100
      { coefficient := some coefficient
        strength := strengthOfAbs |coefficient|
        sampleSize := ps.length }

/-! ### Facts about the Pearson computation -/

lemma sum_map_get {α : Type} (l : List α) (f : α → ℚ) :
    (l.map f).sum = ∑ i : Fin l.length, f (l.get i) := by
  conv_lhs => rw [← List.ofFn_get l]
  rw [List.map_ofFn, List.sum_ofFn]
  simp [Function.comp]

/-- Cauchy–Schwarz for the correlation sums: `numerator² ≤ denomX * denomY`. -/
lemma corrNumerator_sq_le (ps : List (ℚ × ℚ)) :
    corrNumerator ps ^ 2 ≤ corrDenomX ps * corrDenomY ps := by
  unfold corrNumerator corrDenomX corrDenomY
  rw [sum_map_get, sum_map_get, sum_map_get]
  exact Finset.sum_mul_sq_le_sq_mul_sq _ _ _

lemma corrDenomX_nonneg (ps : List (ℚ × ℚ)) : 0 ≤ corrDenomX ps := by
  unfold corrDenomX
  rw [sum_map_get]
  positivity

lemma corrDenomY_nonneg (ps : List (ℚ × ℚ)) : 0 ≤ corrDenomY ps := by
  unfold corrDenomY
  rw [sum_map_get]
  positivity

lemma strengthOfAbs_iff (a : ℚ) :
    (strengthOfAbs a = "strong" ↔ 1/2 ≤ a) ∧
    (strengthOfAbs a = "moderate" ↔ 3/10 ≤ a ∧ a < 1/2) ∧
    (strengthOfAbs a = "weak" ↔ 1/10 ≤ a ∧ a < 3/10) ∧
    (strengthOfAbs a = "none" ↔ a < 1/10) := by
  unfold strengthOfAbs
  split_ifs with h1 h2 h3 <;>
    refine ⟨?_, ?_, ?_, ?_⟩ <;> simp only [ge_iff_le, not_le] at * <;>
    constructor <;> intro h <;>
    first
      | linarith
      | (exfalso; revert h; simp; intros; linarith)
      | simp_all
      | rfl

/-- The real Pearson value before rounding, `numerator / √(denomX·denomY)`,
lies in `[-1, 1]` whenever the denominator is non-zero. -/
lemma pearson_ratio_abs_le (ps : List (ℚ × ℚ))
    (hd : Real.sqrt ((corrDenomX ps : ℝ) * (corrDenomY ps : ℝ)) ≠ 0) :
    |(corrNumerator ps : ℝ) /
      Real.sqrt ((corrDenomX ps : ℝ) * (corrDenomY ps : ℝ))| ≤ 1 := by
  set D : ℝ := (corrDenomX ps : ℝ) * (corrDenomY ps : ℝ) with hD
  have hDnn : 0 ≤ D := by
    have := corrDenomX_nonneg ps
    have := corrDenomY_nonneg ps
    rw [hD]
    positivity
  have hsq : (corrNumerator ps : ℝ) ^ 2 ≤ D := by
    rw [hD]
    exact_mod_cast corrNumerator_sq_le ps
  have hpos : 0 < Real.sqrt D := (Real.sqrt_pos.mpr (lt_of_le_of_ne hDnn (by
    intro h
    exact hd (by rw [← h, Real.sqrt_zero]))))
  rw [abs_div, abs_of_nonneg (Real.sqrt_nonneg D), div_le_one hpos]
  calc |(corrNumerator ps : ℝ)|
      = Real.sqrt ((corrNumerator ps : ℝ) ^ 2) := (Real.sqrt_sq_eq_abs _).symm
    _ ≤ Real.sqrt D := Real.sqrt_le_sqrt hsq

/-- Rounding a real in `[-1,1]` to two decimals stays in `[-1,1]`. -/
lemma round2_bounds {r : ℝ} (h : |r| ≤ 1) :
    (-1 : ℚ) ≤ (round (r * 100) : ℤ) / 100 ∧ ((round (r * 100) : ℤ) : ℚ) / 100 ≤ 1 := by
  obtain ⟨hlo, hhi⟩ := abs_le.mp h
  have hup : round (r * 100) ≤ 100 := by
    rw [round_eq, Int.floor_le_iff]
    push_cast
    linarith
  have hdown : (-100 : ℤ) ≤ round (r * 100) := by
    rw [round_eq, Int.le_floor]
    push_cast
    linarith
  constructor
  · rw [le_div_iff (by norm_num : (0:ℚ) < 100)]
    exact_mod_cast hdown
  · rw [div_le_one (by norm_num : (0:ℚ) < 100)]
    exact_mod_cast hup

/-- **C1** — `_calculateCorrelation` filters to pairs where both values are
non-null numbers; with fewer than 3 valid pairs it returns
`{coefficient: null, strength: "none"}` with that sample size; otherwise any
numeric coefficient it returns is the normalized covariance rounded to two
decimals, lies in `[-1, 1]`, and the strength is the pure threshold
classification of `|coefficient|` (`strong` iff `|r| ≥ 0.5`, `moderate` iff
`0.3 ≤ |r| < 0.5`, `weak` iff `0.1 ≤ |r| < 0.3`, else `none`). -/
theorem C1_pearson_correlation_spec (xs ys : List (Option ℚ)) :
    ((validPairs xs ys).length < 3 →
        calculateCorrelation xs ys =
          { coefficient := none, strength := "none",
            sampleSize := (validPairs xs ys).length }) ∧
    (∀ c : ℚ, (calculateCorrelation xs ys).coefficient = some c →
        c = (round ((corrNumerator (validPairs xs ys) : ℝ) /
              Real.sqrt ((corrDenomX (validPairs xs ys) : ℝ) *
                (corrDenomY (validPairs xs ys) : ℝ)) * 100) : ℤ) / 100 ∧
        (-1 ≤ c ∧ c ≤ 1) ∧
        ((calculateCorrelation xs ys).strength = "strong" ↔ 1/2 ≤ |c|) ∧
        ((calculateCorrelation xs ys).strength = "moderate" ↔
          3/10 ≤ |c| ∧ |c| < 1/2) ∧
        ((calculateCorrelation xs ys).strength = "weak" ↔
          1/10 ≤ |c| ∧ |c| < 3/10) ∧
        ((calculateCorrelation xs ys).strength = "none" ↔ |c| < 1/10)) := by
  constructor
  · intro h
    unfold calculateCorrelation
    rw [if_pos h]
  · intro c hc
    unfold calculateCorrelation at hc ⊢
    by_cases h3 : (validPairs xs ys).length < 3
    · rw [if_pos h3] at hc
      exact absurd hc (by simp)
    · rw [if_neg h3] at hc ⊢
      by_cases hd : Real.sqrt ((corrDenomX (validPairs xs ys) : ℝ) *
          (corrDenomY (validPairs xs ys) : ℝ)) = 0
      · rw [if_pos hd] at hc
        exact absurd hc (by simp)
      · rw [if_neg hd] at hc ⊢
        simp only [Option.some.injEq] at hc
        subst hc
        have hb := round2_bounds (r :=
          (corrNumerator (validPairs xs ys) : ℝ) /
            Real.sqrt ((corrDenomX (validPairs xs ys) : ℝ) *
              (corrDenomY (validPairs xs ys) : ℝ)))
          (pearson_ratio_abs_le _ hd)
        refine ⟨rfl, hb, ?_, ?_, ?_, ?_⟩ <;>
          exact (by
            obtain ⟨hs1, hs2, hs3, hs4⟩ := strengthOfAbs_iff
              (|(round ((corrNumerator (validPairs xs ys) : ℝ) /
                Real.sqrt ((corrDenomX (validPairs xs ys) : ℝ) *
                  (corrDenomY (validPairs xs ys) : ℝ)) * 100) : ℤ) / 100|)
            first | exact hs1 | exact hs2 | exact hs3 | exact hs4)

/-- Witness for C1: on the series `x = y = [0, 1, 2]` the computed coefficient
is `1`, it lies in `[-1, 1]`, and the strength is `"strong"`. -/
theorem C1_pearson_correlation_spec_witness :
    (calculateCorrelation [some 0, some 1, some 2]
        [some 0, some 1, some 2]).coefficient = some 1 ∧
    ((-1 : ℚ) ≤ 1 ∧ (1 : ℚ) ≤ 1) ∧
    (calculateCorrelation [some 0, some 1, some 2]
        [some 0, some 1, some 2]).strength = "strong" := by
  have hps : validPairs [some 0, some 1, some 2] [some 0, some 1, some 2] =
      [(0,0),(1,1),(2,2)] := by decide
  have hn : corrNumerator [((0:ℚ),(0:ℚ)),(1,1),(2,2)] = 2 := by
    norm_num [corrNumerator, listAvg]
  have hx : corrDenomX [((0:ℚ),(0:ℚ)),(1,1),(2,2)] = 2 := by
    norm_num [corrDenomX, listAvg]
  have hy : corrDenomY [((0:ℚ),(0:ℚ)),(1,1),(2,2)] = 2 := by
    norm_num [corrDenomY, listAvg]
  have hsqrt : Real.sqrt (((2:ℚ):ℝ) * ((2:ℚ):ℝ)) = 2 := by
    have h4 : (((2:ℚ):ℝ) * ((2:ℚ):ℝ)) = 2^2 := by norm_num
    rw [h4, Real.sqrt_sq (by norm_num)]
  have hround : round ((((2:ℚ)):ℝ) / 2 * 100) = 100 := by
    have h100 : ((((2:ℚ)):ℝ) / 2 * 100) = ((100:ℤ):ℝ) := by norm_num
    rw [h100, round_intCast]
  have hc : (calculateCorrelation [some 0, some 1, some 2]
      [some 0, some 1, some 2]).coefficient = some 1 := by
    unfold calculateCorrelation
    rw [hps]
    rw [if_neg (by norm_num), hn, hx, hy, hsqrt, if_neg (by norm_num), hround]
    norm_num
  have h := (C1_pearson_correlation_spec
    [some 0, some 1, some 2] [some 0, some 1, some 2]).2 1 hc
  exact ⟨hc, h.2.1, (h.2.2.1).mpr (by norm_num)⟩

/-! ## Optional-feature selection (`getFlowPredictions`, lines 610-622) -/

/-- `hasValidData` (lines 610-613): the factor's correlation exists, has a
non-null coefficient and sample size ≥ 3. -/
def hasValidData (corr : Option CorrResult) : Bool :=
  match corr with
  | none => false
  | some c => c.coefficient.isSome && decide (3 ≤ c.sampleSize)

/-- `useSunshine`/`usePressure`/`useHumidity`/`useWindSpeed` (lines 615-622):
include an optional factor only if `hasValidData` holds and its strength is
strong or moderate. -/
def useFactor (corr : Option CorrResult) : Bool :=
  match corr with
  | none => false
  | some c =>
      hasValidData (some c) && (c.strength == "strong" || c.strength == "moderate")

/-- The average of a list all of whose entries are `v` is `v`. -/
lemma listAvg_const (l : List ℚ) (v : ℚ) (hne : l ≠ []) (h : ∀ x ∈ l, x = v) :
    listAvg l = v := by
  have hsum : l.sum = l.length • v := List.sum_eq_card_nsmul l v h
  have hn : (l.length : ℚ) ≠ 0 := by
    simpa using List.length_pos.mpr hne|>.ne'
  rw [listAvg, hsum, nsmul_eq_mul]
  field_simp

/-- A constant first series makes `denomX` vanish. -/
lemma corrDenomX_eq_zero (ps : List (ℚ × ℚ)) (v : ℚ) (hne : ps ≠ [])
    (h : ∀ p ∈ ps, p.1 = v) : corrDenomX ps = 0 := by
  unfold corrDenomX
  apply List.sum_eq_zero
  intro x hx
  obtain ⟨p, hp, rfl⟩ := List.mem_map.mp hx
  have havg : listAvg (ps.map Prod.fst) = v :=
    listAvg_const _ v (by simpa using hne) (by
      intro x hx
      obtain ⟨q, hq, rfl⟩ := List.mem_map.mp hx
      exact h q hq)
  rw [havg, h p hp]
  ring

/-- A constant second series makes `denomY` vanish. -/
lemma corrDenomY_eq_zero (ps : List (ℚ × ℚ)) (v : ℚ) (hne : ps ≠ [])
    (h : ∀ p ∈ ps, p.2 = v) : corrDenomY ps = 0 := by
  unfold corrDenomY
  apply List.sum_eq_zero
  intro x hx
  obtain ⟨p, hp, rfl⟩ := List.mem_map.mp hx
  have havg : listAvg (ps.map Prod.snd) = v :=
    listAvg_const _ v (by simpa using hne) (by
      intro x hx
      obtain ⟨q, hq, rfl⟩ := List.mem_map.mp hx
      exact h q hq)
  rw [havg, h p hp]
  ring

/-- **C10** — with at least 3 valid pairs but a constant series on either side
(zero deviation, hence a zero correlation denominator), `_calculateCorrelation`
returns `{coefficient: null, strength: "none"}` with the full sample size
instead of dividing by zero, and such a factor is never selected as an
optional regression feature (`useFactor` is `false`). -/
theorem C10_constant_series_null_coefficient (xs ys : List (Option ℚ)) (v : ℚ)
    (h3 : 3 ≤ (validPairs xs ys).length)
    (hconst : (∀ p ∈ validPairs xs ys, p.1 = v) ∨
              (∀ p ∈ validPairs xs ys, p.2 = v)) :
    calculateCorrelation xs ys =
      { coefficient := none, strength := "none",
        sampleSize := (validPairs xs ys).length } ∧
    useFactor (some (calculateCorrelation xs ys)) = false := by
  have hne : validPairs xs ys ≠ [] := by
    intro h
    rw [h] at h3
    simp at h3
  have hzero : (corrDenomX (validPairs xs ys) : ℝ) *
      (corrDenomY (validPairs xs ys) : ℝ) = 0 := by
    rcases hconst with h | h
    · rw [corrDenomX_eq_zero _ v hne h]
      norm_num
    · rw [corrDenomY_eq_zero _ v hne h]
      norm_num
  have hres : calculateCorrelation xs ys =
      { coefficient := none, strength := "none",
        sampleSize := (validPairs xs ys).length } := by
    unfold calculateCorrelation
    rw [if_neg (by omega), hzero, Real.sqrt_zero, if_pos rfl]
  exact ⟨hres, by rw [hres]; rfl⟩

/-- Witness for C10: three pairs with constant `x = 5` and varying `y` produce
a null coefficient, strength `"none"`, sample size 3, and are not selected as
a regression feature. -/
theorem C10_constant_series_null_coefficient_witness :
    3 ≤ (validPairs [some 5, some 5, some 5] [some 1, some 2, some 3]).length ∧
    calculateCorrelation [some 5, some 5, some 5] [some 1, some 2, some 3] =
      { coefficient := none, strength := "none", sampleSize := 3 } ∧
    useFactor (some (calculateCorrelation [some 5, some 5, some 5]
      [some 1, some 2, some 3])) = false := by
  have h3 : 3 ≤ (validPairs [some 5, some 5, some 5]
      [some 1, some 2, some 3]).length := by decide
  have h := C10_constant_series_null_coefficient
    [some 5, some 5, some 5] [some 1, some 2, some 3] 5 h3
    (Or.inl (by decide))
  refine ⟨h3, ?_, h.2⟩
  rw [h.1]
  rfl

/-! ## Linear algebra (`StatsService`, lines 260-325) -/

/-- `_transpose` (lines 279-287). -/
def transposeM (A : List (List ℚ)) : List (List ℚ) :=
  (List.range (A.headD []).length).map fun j => A.map fun row => row.getD j 0

/-- `_matMul` (lines 289-304): entry `(i,j)` is `Σ_k A[i][k] * B[k][j]` with
`inner = A[0].length` and `cols = B[0].length`. -/
def matMul (A B : List (List ℚ)) : List (List ℚ) :=
  A.map fun rowA =>
    (List.range (B.headD []).length).map fun j =>
      ((List.range (A.headD []).length).map fun k =>
        rowA.getD k 0 * (B.getD k []).getD j 0).sum

/-- One Gauss-Jordan elimination step for column `col` (lines 309-322):
partial pivot selection, row swap, pivot check against `1e-10`, row
normalization and elimination of the other rows. -/
def gjStep (n : ℕ) (aug : List (List ℚ)) (col : ℕ) : Option (List (List ℚ)) :=
  let pivot := (List.range' (col + 1) (n - (col + 1))).foldl
    (fun p r =>
      if |(aug.getD r []).getD col 0| > |(aug.getD p []).getD col 0| then r else p)
    col
  let augSwapped := (aug.set col (aug.getD pivot [])).set pivot (aug.getD col [])
  let div := (augSwapped.getD col []).getD col 0
  if |div| < 1/10^10 then none
  else
    let pivotRow := (augSwapped.getD col []).map (· / div)
    let aug2 := augSwapped.set col pivotRow
    some ((List.range aug2.length).map fun r =>
      if r = col then aug2.getD r []
      else
        let rowr := aug2.getD r []
        rowr.zipWith (fun x p => x - rowr.getD col 0 * p) pivotRow)

/-- The Gauss-Jordan column loop (lines 309-323); a failed step (the JS
`return null`) aborts via `Option.bind`. -/
def gjLoop (n : ℕ) : List ℕ → List (List ℚ) → Option (List (List ℚ))
  | [], aug => some aug
  | col :: rest, aug => (gjStep n aug col).bind (gjLoop n rest)

/-- `_inverse` (lines 306-325): Gauss-Jordan on `[A | I]`; `none` (singular)
when some pivot has absolute value below `1e-10`. -/
def inverseM (A : List (List ℚ)) : Option (List (List ℚ)) :=
  let n := A.length
  let aug := A.enum.map fun p =>
    p.2 ++ (List.range n).map fun j => if p.1 = j then (1 : ℚ) else 0
  (gjLoop n (List.range n) aug).map fun aug2 => aug2.map fun row => row.drop n

/-- Dot product `Σ_j a[j] * b[j]` (the `reduce` loops in lines 272, 275,
697, 754-756, 770-774). -/
def dotL (a b : List ℚ) : ℚ := ((a.zip b).map fun q => q.1 * q.2).sum

/-- `_linearRegression` result `{ coefficients, intercept }` (line 276). -/
structure RegModel where
  coefficients : List ℚ
  intercept : ℚ
deriving Repr, DecidableEq

/-- `_linearRegression` (lines 265-277): `β = (XᵗX)⁻¹ Xᵗy`; `none` when the
system is underdetermined (`n < p`) or `XᵗX` fails to invert. -/
def linearRegression (X : List (List ℚ)) (y : List ℚ) : Option RegModel :=
  if X.length < (X.headD []).length then none
  else
    let Xt := transposeM X
    let Xty := Xt.map fun row => dotL row y
    (inverseM (matMul Xt X)).map fun invXtX =>
      let beta := invXtX.map fun row => dotL row Xty
      { coefficients := beta, intercept := beta.headD 0 }

/-- A concrete invertible fit reused by witnesses: rows `[1, tempHigh, tempLow]`
for temps `(50,20), (45,25), (60,30)` against volumes `10, 5, 20` yield the
exact model `volume = -40 + 1·tempHigh + 0·tempLow`. -/
lemma linearRegression_concrete :
    linearRegression [[1,50,20],[1,45,25],[1,60,30]] [10,5,20] =
      some { coefficients := [-40, 1, 0], intercept := -40 } := by
  have h0 : gjStep 3 [[3,155,75,1,0,0],[155,8125,3925,0,1,0],[75,3925,1925,0,0,1]] 0 =
      some [[1, 1625/31, 785/31, 0, 1/155, 0],
            [0, -70/31, -30/31, 1, -3/155, 0],
            [0, -200/31, 800/31, 0, -15/31, 1]] := by
    norm_num [gjStep, List.range_succ, List.range']
  have h1 : gjStep 3 [[1, 1625/31, 785/31, 0, 1/155, 0],
        [0, -70/31, -30/31, 1, -3/155, 0],
        [0, -200/31, 800/31, 0, -15/31, 1]] 1 =
      some [[1, 0, 235, 0, -157/40, 65/8],
            [0, 1, -4, 0, 3/40, -31/200],
            [0, 0, -10, 1, 3/20, -7/20]] := by
    norm_num [gjStep, List.range_succ, List.range', abs_div, abs_neg]
  have h2 : gjStep 3 [[1, 0, 235, 0, -157/40, 65/8],
        [0, 1, -4, 0, 3/40, -31/200],
        [0, 0, -10, 1, 3/20, -7/20]] 2 =
      some [[1, 0, 0, 47/2, -2/5, -1/10],
            [0, 1, 0, -2/5, 3/200, -3/200],
            [0, 0, 1, -1/10, -3/200, 7/200]] := by
    norm_num [gjStep, List.range_succ, List.range', abs_div, abs_neg]
  have hInv : inverseM [[(3:ℚ),155,75],[155,8125,3925],[75,3925,1925]] =
      some [[47/2, -2/5, -1/10], [-2/5, 3/200, -3/200], [-1/10, -3/200, 7/200]] := by
    unfold inverseM
    norm_num [List.enum, List.enumFrom, List.range_succ]
    rw [gjLoop, h0, Option.some_bind, gjLoop, h1, Option.some_bind,
      gjLoop, h2, Option.some_bind, gjLoop]
    norm_num
  have hXtX : matMul (transposeM [[(1:ℚ),50,20],[1,45,25],[1,60,30]])
      [[(1:ℚ),50,20],[1,45,25],[1,60,30]] =
      [[3,155,75],[155,8125,3925],[75,3925,1925]] := by
    norm_num [matMul, transposeM, List.range_succ]
  unfold linearRegression
  rw [if_neg (by norm_num)]
  dsimp only
  rw [hXtX, hInv, Option.map_some']
  norm_num [dotL, transposeM, List.range_succ]

/-! ## Flow predictions (`StatsService.getFlowPredictions`, lines 596-790) -/

/-- One joined correlation datum — the fields of `detailedCorr.data[i]` that
`getFlowPredictions` / `getTraditionalFlowPredictions` read. -/
structure Datum where
  date : ℤ
  volume : ℚ
  tempHigh : ℚ
  tempLow : ℚ
  tempDelta : ℚ
  idealConditions : Bool
  prevDayTempHigh : Option ℚ
  prevDayTempLow : Option ℚ
  sunshineHours : Option ℚ
  pressure : Option ℚ
  humidity : Option ℚ
  windSpeed : Option ℚ
deriving Repr, DecidableEq

/-- One forecast day from `weatherService.getForecast` (fields read when
projecting forward). -/
structure ForecastDay where
  date : ℤ
  tempHigh : Option ℚ
  tempLow : Option ℚ
  sunshineHours : Option ℚ
  pressure : Option ℚ
  humidity : Option ℚ
  windSpeed : Option ℚ
deriving Repr, DecidableEq

/-- The four optional factor correlations consulted by the feature selector
(`correlations.sunshineHours` etc., possibly absent). -/
structure OptCorrelations where
  sunshineHours : Option CorrResult
  pressure : Option CorrResult
  humidity : Option CorrResult
  windSpeed : Option CorrResult
deriving Repr, DecidableEq

/-- A returned prediction point (lines 759-766). -/
structure PredictionPoint where
  date : ℤ
  predictedVolume : ℚ
  predictedVolumePerTap : Option ℚ
  tempHigh : ℚ
  tempLow : ℚ
  idealForSap : Bool
deriving Repr, DecidableEq

/-- The result object of `getFlowPredictions`; absent JS keys are `none` /
`false`. -/
structure FlowResult where
  predictions : List PredictionPoint
  insufficientData : Bool
  modelQuality : Option ℚ
  totalDays : ℕ
  totalTaps : Option ℕ
  featuresUsed : Option (List String)
deriving Repr, DecidableEq

/-- The inputs `getFlowPredictions` works from once the async fetches are done:
the joined data and per-factor correlations (from
`getDetailedWeatherCorrelation`), the summed tap count (from the zones), the
forecast (from `weatherService.getForecast`) and the temperature unit. -/
structure FlowInput where
  data : List Datum
  correlations : OptCorrelations
  totalTaps : ℕ
  forecast : List ForecastDay
  temperatureUnit : String
deriving Repr, DecidableEq

/-- `useSunshine` (lines 615-616). -/
def useSunshine (i : FlowInput) : Bool := useFactor i.correlations.sunshineHours

/-- `usePressure` (lines 617-618). -/
def usePressure (i : FlowInput) : Bool := useFactor i.correlations.pressure

/-- `useHumidity` (lines 619-620). -/
def useHumidity (i : FlowInput) : Bool := useFactor i.correlations.humidity

/-- `useWindSpeed` (lines 621-622). -/
def useWindSpeed (i : FlowInput) : Bool := useFactor i.correlations.windSpeed

/-- `avgSunshine` (lines 624-626): training mean of `sunshineHours || 0`,
only computed when the factor is used. -/
def avgSunshine (i : FlowInput) : ℚ :=
  if useSunshine i then listAvg (i.data.map fun d => d.sunshineHours.getD 0) else 0

/-- `avgPressure` (lines 627-629). -/
def avgPressure (i : FlowInput) : ℚ :=
  if usePressure i then listAvg (i.data.map fun d => d.pressure.getD 0) else 0

/-- `avgHumidity` (lines 630-632). -/
def avgHumidity (i : FlowInput) : ℚ :=
  if useHumidity i then listAvg (i.data.map fun d => d.humidity.getD 0) else 0

/-- `avgWindSpeed` (lines 633-635). -/
def avgWindSpeed (i : FlowInput) : ℚ :=
  if useWindSpeed i then listAvg (i.data.map fun d => d.windSpeed.getD 0) else 0

/-- `featureNames` (lines 637-641): the base seven names plus the selected
optional factors, in push order. -/
def featureNames (i : FlowInput) : List String :=
  ["intercept", "tempHigh", "tempLow", "tempDelta", "prevDayTempHigh",
    "prevDayTempLow", "idealConditions"]
  ++ (if useSunshine i then ["sunshineHours"] else [])
  ++ (if usePressure i then ["pressure"] else [])
  ++ (if useHumidity i then ["humidity"] else [])
  ++ (if useWindSpeed i then ["windSpeed"] else [])

/-- `buildFullFeatureRow(d)` (lines 643-658) as called at line 660, i.e. with
`useFallbacks = true`: missing lag temps fall back to same-day temps, missing
optional factors to their training mean. -/
def buildFullFeatureRow (i : FlowInput) (d : Datum) : List ℚ :=
  [1, d.tempHigh, d.tempLow, d.tempDelta,
    d.prevDayTempHigh.getD d.tempHigh, d.prevDayTempLow.getD d.tempLow,
    if d.idealConditions then 1 else 0]
  ++ (if useSunshine i then [d.sunshineHours.getD (avgSunshine i)] else [])
  ++ (if usePressure i then [d.pressure.getD (avgPressure i)] else [])
  ++ (if useHumidity i then [d.humidity.getD (avgHumidity i)] else [])
  ++ (if useWindSpeed i then [d.windSpeed.getD (avgWindSpeed i)] else [])

/-- `XFull` (line 660). -/
def XFull (i : FlowInput) : List (List ℚ) := i.data.map (buildFullFeatureRow i)

/-- `y` (line 661). -/
def yVec (i : FlowInput) : List ℚ := i.data.map fun d => d.volume

/-- `colVariances` (lines 663-667): population variance of each column of
`XFull`. -/
def colVariances (i : FlowInput) : List ℚ :=
  (List.range ((XFull i).headD []).length).map fun colIdx =>
    let col := (XFull i).map fun row => row.getD colIdx 0
    (col.map fun v => (v - listAvg col) ^ 2).sum / col.length

/-- `keptCols` (lines 669-671): indices of the columns that survive —
the intercept (index 0) and every column with variance `> 1e-10`. -/
def keptCols (i : FlowInput) : List ℕ :=
  (colVariances i).enum.filterMap fun p =>
    if p.1 = 0 ∨ p.2 > 1/10^10 then some p.1 else none

/-- `X` (line 676): `XFull` restricted to the kept columns. -/
def Xkept (i : FlowInput) : List (List ℚ) :=
  (XFull i).map fun row => (keptCols i).map fun idx => row.getD idx 0

/-- `keptFeatureNames` (line 677). -/
def keptFeatureNames (i : FlowInput) : List String :=
  (keptCols i).map fun idx => (featureNames i).getD idx ""

/-- The primary fit `model = _linearRegression(X, y)` (line 681). -/
def fullModel (i : FlowInput) : Option RegModel :=
  linearRegression (Xkept i) (yVec i)

/-- The fallback fit over `XMinimal = [[1, tempHigh, tempLow], ...]`
(lines 685-686). -/
def minimalModel (i : FlowInput) : Option RegModel :=
  linearRegression (i.data.map fun d => [1, d.tempHigh, d.tempLow]) (yVec i)

/-- `totalTaps || null` (lines 717, 787). -/
def totalTapsOrNull (i : FlowInput) : Option ℕ :=
  if i.totalTaps = 0 then none else some i.totalTaps

/-- `volume / totalTaps` rounded, or `null` without tap data (lines 702, 762). -/
def perTap (i : FlowInput) (v : ℚ) : Option ℚ :=
  if 0 < i.totalTaps then some (round2 (v / i.totalTaps)) else none

/-- `R² = 1 - ssRes/ssTot` rounded to 2 decimals, `null` when `ssTot = 0`
(lines 709-712 and 776-779). -/
def rSquared (y fitted : List ℚ) : Option ℚ :=
  let meanY := listAvg y
  let ssTot := (y.map fun v => (v - meanY) ^ 2).sum
  let ssRes := ((y.zip fitted).map fun p => (p.1 - p.2) ^ 2).sum
  if ssTot > 0 then some (round2 (1 - ssRes / ssTot)) else none

/-- `new Map(pairs).get(k)`: the value of the last pair with the given key. -/
def jsMapGet {α : Type} (l : List (ℤ × α)) (k : ℤ) : Option α :=
  (l.reverse.find? fun p => p.1 == k).map fun p => p.2

/-- Fallback-path predictions (lines 693-707): features `[1, tempHigh,
tempLow]` per forecast day, prediction clamped at 0 after rounding. -/
def fallbackPredictions (i : FlowInput) (m : RegModel) : List PredictionPoint :=
  i.forecast.map fun day =>
    let tempHigh := day.tempHigh.getD 0
    let tempLow := day.tempLow.getD 0
    let predictedVolume := max 0 (round2 (dotL m.coefficients [1, tempHigh, tempLow]))
    { date := day.date
      predictedVolume := predictedVolume
      predictedVolumePerTap := perTap i predictedVolume
      tempHigh := tempHigh
      tempLow := tempLow
      idealForSap := isSapFlowIdeal tempHigh tempLow i.temperatureUnit }

/-- Primary-path predictions (lines 724-767): per forecast day, build the full
feature row (lag features from the previous forecast day when available),
restrict to the kept columns, apply the coefficients, clamp at 0 after
rounding. -/
def primaryPredictions (i : FlowInput) (m : RegModel) : List PredictionPoint :=
  i.forecast.enum.map fun p =>
    let day := p.2
    let prev1 : Option ForecastDay :=
      (jsMapGet (i.forecast.map fun d => (d.date, d)) (day.date - 1)).orElse
        fun _ => if 0 < p.1 then i.forecast.get? (p.1 - 1) else none
    let tempHigh := day.tempHigh.getD 0
    let tempLow := day.tempLow.getD 0
    let tempDelta := tempHigh - tempLow
    let prevHigh := (prev1.bind fun q => q.tempHigh).getD tempHigh
    let prevLow := (prev1.bind fun q => q.tempLow).getD tempLow
    let idealForSap := isSapFlowIdeal tempHigh tempLow i.temperatureUnit
    let fullFeat :=
      [1, tempHigh, tempLow, tempDelta, prevHigh, prevLow,
        if idealForSap then 1 else 0]
      ++ (if useSunshine i then [day.sunshineHours.getD (avgSunshine i)] else [])
      ++ (if usePressure i then [day.pressure.getD (avgPressure i)] else [])
      ++ (if useHumidity i then [day.humidity.getD (avgHumidity i)] else [])
      ++ (if useWindSpeed i then [day.windSpeed.getD (avgWindSpeed i)] else [])
    let feat := (keptCols i).map fun idx => fullFeat.getD idx 0
    let predictedVolume := max 0 (round2 (dotL m.coefficients feat))
    { date := day.date
      predictedVolume := predictedVolume
      predictedVolumePerTap := perTap i predictedVolume
      tempHigh := tempHigh
      tempLow := tempLow
      idealForSap := idealForSap }

/-- The early / doubly-failed return
`{predictions: [], insufficientData: true, totalDays}` (lines 602, 689). -/
def insufficientResult (i : FlowInput) : FlowResult :=
  { predictions := [], insufficientData := true, modelQuality := none
    totalDays := i.data.length, totalTaps := none, featuresUsed := none }

/-- `getFlowPredictions` (lines 596-790), as a function of the already-fetched
inputs: require ≥ 3 joined days, fit the kept-column model, fall back to the
minimal `[intercept, tempHigh, tempLow]` model on singularity, and give up
with `insufficientData` only if both fits fail. -/
def getFlowPredictions (i : FlowInput) : FlowResult :=
  if i.data.length < 3 then insufficientResult i
  else
    match fullModel i with
    | some m =>
        { predictions := primaryPredictions i m
          insufficientData := false
          modelQuality := rSquared (yVec i) ((Xkept i).map fun row => dotL m.coefficients row)
          totalDays := i.data.length
          totalTaps := totalTapsOrNull i
          featuresUsed := some ((keptFeatureNames i).filter fun n => n ≠ "intercept") }
    | none =>
        match minimalModel i with
        | none => insufficientResult i
        | some m =>
            { predictions := fallbackPredictions i m
              insufficientData := false
              modelQuality := rSquared (yVec i)
                (i.data.map fun d =>
                  m.coefficients.getD 0 0 + m.coefficients.getD 1 0 * d.tempHigh +
                    m.coefficients.getD 2 0 * d.tempLow)
              totalDays := i.data.length
              totalTaps := totalTapsOrNull i
              featuresUsed := some ["tempHigh", "tempLow"] }

/-- The result object of `getTraditionalFlowPredictions` (lines 830-837). -/
structure TradResult where
  predictions : List PredictionPoint
  method : String
  totalDays : ℕ
  totalTaps : Option ℕ
  insufficientData : Bool
deriving Repr, DecidableEq

/-- `getTraditionalFlowPredictions` (lines 797-838): average volume over the
ideal-condition training days; each forecast day predicts that average
(rounded, not clamped) if ideal, otherwise 0. -/
def getTraditionalFlowPredictions (i : FlowInput) : TradResult :=
  let idealDays := i.data.filter fun d => d.idealConditions
  let avgIdealVolume : Option ℚ :=
    if 0 < idealDays.length then some (listAvg (idealDays.map fun d => d.volume))
    else none
  let predictions := i.forecast.map fun day =>
    let tempHigh := day.tempHigh.getD 0
    let tempLow := day.tempLow.getD 0
    let idealForSap := isSapFlowIdeal tempHigh tempLow i.temperatureUnit
    let predictedVolume :=
      match avgIdealVolume with
      | some avg => if idealForSap then round2 avg else 0
      | none => 0
    { date := day.date
      predictedVolume := predictedVolume
      predictedVolumePerTap := perTap i predictedVolume
      tempHigh := tempHigh
      tempLow := tempLow
      idealForSap := idealForSap }
  { predictions := predictions
    method := "traditional"
    totalDays := i.data.length
    totalTaps := totalTapsOrNull i
    insufficientData := decide (predictions.length = 0 ∨ avgIdealVolume = none) }

/-! ### C2, C3 — data-sparsity boundary and the fallback ladder -/

/-- **C2** — with fewer than 3 joined correlation rows `getFlowPredictions`
returns `{predictions: [], insufficientData: true}` (with that `totalDays`) and
fits no model; with exactly 3 rows and an invertible minimal model (and a
non-empty forecast) it returns non-empty predictions. -/
theorem C2_insufficient_data_boundary (i : FlowInput) :
    (i.data.length < 3 →
        getFlowPredictions i =
          { predictions := [], insufficientData := true, modelQuality := none
            totalDays := i.data.length, totalTaps := none, featuresUsed := none }) ∧
    (i.data.length = 3 → (minimalModel i).isSome → i.forecast ≠ [] →
        (getFlowPredictions i).predictions ≠ []) := by
  constructor
  · intro h
    unfold getFlowPredictions
    rw [if_pos h]
    rfl
  · intro hlen hmin hfc
    unfold getFlowPredictions
    rw [if_neg (by omega)]
    cases hfull : fullModel i with
    | some m =>
        simpa [primaryPredictions] using hfc
    | none =>
        cases hm : minimalModel i with
        | none => rw [hm] at hmin; simp at hmin
        | some m => simpa [fallbackPredictions] using hfc

/-- **C3** — when the full-feature fit fails, `getFlowPredictions` falls back
to the minimal `[intercept, tempHigh, tempLow]` model; if that also fails it
returns `{predictions: [], insufficientData: true}` (no exception — the
embedding is a total function); if the fallback succeeds the result reports
`featuresUsed = ["tempHigh", "tempLow"]` and one prediction per forecast day,
non-empty for a non-empty forecast. -/
theorem C3_fallback_ladder (i : FlowInput) (hlen : 3 ≤ i.data.length)
    (hfull : fullModel i = none) :
    (minimalModel i = none →
        getFlowPredictions i =
          { predictions := [], insufficientData := true, modelQuality := none
            totalDays := i.data.length, totalTaps := none, featuresUsed := none }) ∧
    (∀ m, minimalModel i = some m →
        (getFlowPredictions i).featuresUsed = some ["tempHigh", "tempLow"] ∧
        (getFlowPredictions i).predictions = fallbackPredictions i m ∧
        (getFlowPredictions i).predictions.length = i.forecast.length ∧
        (i.forecast ≠ [] → (getFlowPredictions i).predictions ≠ [])) := by
  constructor
  · intro hm
    unfold getFlowPredictions
    rw [if_neg (by omega), hfull, hm]
    rfl
  · intro m hm
    unfold getFlowPredictions
    rw [if_neg (by omega), hfull, hm]
    refine ⟨rfl, rfl, by simp [fallbackPredictions], fun hfc => ?_⟩
    simpa [fallbackPredictions] using hfc

/-- A concrete three-day training input used to exercise the predictor:
temps `(50,20), (45,25), (60,30)` (all ideal freeze/thaw days), volumes
`10, 5, 20`, no optional factors, one forecast day. -/
def sampleFlowInput : FlowInput :=
  { data :=
      [{ date := 0, volume := 10, tempHigh := 50, tempLow := 20, tempDelta := 30,
         idealConditions := true, prevDayTempHigh := none, prevDayTempLow := none,
         sunshineHours := none, pressure := none, humidity := none, windSpeed := none },
       { date := 1, volume := 5, tempHigh := 45, tempLow := 25, tempDelta := 20,
         idealConditions := true, prevDayTempHigh := none, prevDayTempLow := none,
         sunshineHours := none, pressure := none, humidity := none, windSpeed := none },
       { date := 2, volume := 20, tempHigh := 60, tempLow := 30, tempDelta := 30,
         idealConditions := true, prevDayTempHigh := none, prevDayTempLow := none,
         sunshineHours := none, pressure := none, humidity := none, windSpeed := none }]
    correlations :=
      { sunshineHours := none, pressure := none, humidity := none, windSpeed := none }
    totalTaps := 0
    forecast :=
      [{ date := 3, tempHigh := some 55, tempLow := some 25, sunshineHours := none,
         pressure := none, humidity := none, windSpeed := none }]
    temperatureUnit := "fahrenheit" }

lemma minimalModel_sample :
    minimalModel sampleFlowInput =
      some { coefficients := [-40, 1, 0], intercept := -40 } := by
  have h : minimalModel sampleFlowInput =
      linearRegression [[1,50,20],[1,45,25],[1,60,30]] [10,5,20] := rfl
  rw [h, linearRegression_concrete]

lemma XFull_sample :
    XFull sampleFlowInput =
      [[1,50,20,30,50,20,1],[1,45,25,20,45,25,1],[1,60,30,30,60,30,1]] := rfl

lemma keptCols_sample : keptCols sampleFlowInput = [0, 1, 2, 3, 4, 5] := by
  have hvar : colVariances sampleFlowInput =
      [0, 350/9, 50/3, 200/9, 350/9, 50/3, 0] := by
    unfold colVariances
    rw [XFull_sample]
    norm_num [listAvg, List.range_succ]
  unfold keptCols
  rw [hvar]
  norm_num [List.enum, List.enumFrom, List.filterMap_cons]

lemma fullModel_sample : fullModel sampleFlowInput = none := by
  have hX : Xkept sampleFlowInput =
      [[1,50,20,30,50,20],[1,45,25,20,45,25],[1,60,30,30,60,30]] := by
    unfold Xkept
    rw [keptCols_sample, XFull_sample]
    norm_num
  unfold fullModel
  rw [hX]
  unfold linearRegression
  rw [if_pos (by norm_num)]

/-- Witness for C2: the sample input has exactly 3 joined rows, an invertible
minimal model, a non-empty forecast, and `getFlowPredictions` returns
non-empty predictions on it. -/
theorem C2_insufficient_data_boundary_witness :
    sampleFlowInput.data.length = 3 ∧ (minimalModel sampleFlowInput).isSome ∧
    sampleFlowInput.forecast ≠ [] ∧
    (getFlowPredictions sampleFlowInput).predictions ≠ [] := by
  have h1 : sampleFlowInput.data.length = 3 := rfl
  have h2 : (minimalModel sampleFlowInput).isSome := by
    rw [minimalModel_sample]
    rfl
  have h3 : sampleFlowInput.forecast ≠ [] := by
    simp [sampleFlowInput]
  exact ⟨h1, h2, h3, (C2_insufficient_data_boundary sampleFlowInput).2 h1 h2 h3⟩

/-- Witness for C3: on the sample input the full 6-column fit fails
(3 rows < 6 columns), the minimal fallback succeeds, and the result reports
`featuresUsed = ["tempHigh", "tempLow"]` with non-empty predictions. -/
theorem C3_fallback_ladder_witness :
    3 ≤ sampleFlowInput.data.length ∧ fullModel sampleFlowInput = none ∧
    minimalModel sampleFlowInput =
      some { coefficients := [-40, 1, 0], intercept := -40 } ∧
    (getFlowPredictions sampleFlowInput).featuresUsed =
      some ["tempHigh", "tempLow"] ∧
    (getFlowPredictions sampleFlowInput).predictions ≠ [] := by
  have hlen : 3 ≤ sampleFlowInput.data.length := by norm_num [sampleFlowInput]
  have h := (C3_fallback_ladder sampleFlowInput hlen fullModel_sample).2 _
    minimalModel_sample
  exact ⟨hlen, fullModel_sample, minimalModel_sample, h.1,
    h.2.2.2 (by simp [sampleFlowInput])⟩

/-! ### C4 — variance-based column dropping -/

/-- The full feature row always has at least the 7 base entries. -/
lemma buildFullFeatureRow_length (i : FlowInput) (d : Datum) :
    7 ≤ (buildFullFeatureRow i d).length := by
  simp only [buildFullFeatureRow, List.append_assoc, List.length_append]
  split_ifs <;> simp

lemma colVariances_length (i : FlowInput) :
    (colVariances i).length = ((XFull i).headD []).length := by
  simp [colVariances]

/-- Membership in `keptCols`: the index points at an actual column variance,
and either it is the intercept or the variance exceeds `1e-10`. -/
lemma mem_keptCols (i : FlowInput) (idx : ℕ) :
    idx ∈ keptCols i ↔
      ∃ v, (colVariances i).get? idx = some v ∧ (idx = 0 ∨ 1/10^10 < v) := by
  unfold keptCols
  rw [List.mem_filterMap]
  constructor
  · rintro ⟨⟨j, v⟩, hmem, hsome⟩
    by_cases hc : j = 0 ∨ 1/10^10 < v
    · rw [if_pos hc] at hsome
      obtain rfl : j = idx := by simpa using hsome
      refine ⟨v, ?_, hc⟩
      rw [List.get?_eq_getElem?]
      exact List.mk_mem_enum_iff_getElem?.mp hmem
    · rw [if_neg hc] at hsome
      exact absurd hsome (by simp)
  · rintro ⟨v, hget, hc⟩
    refine ⟨(idx, v), ?_, if_pos hc⟩
    rw [List.mk_mem_enum_iff_getElem?, ← List.get?_eq_getElem?]
    exact hget

/-- **C4** — in the feature matrix built by `getFlowPredictions` the intercept
column is always kept (it heads the kept-column list), every non-intercept
column with variance below `1e-10` is dropped, and the kept feature names stay
aligned 1:1 with the kept columns, with the intercept first. -/
theorem C4_variance_column_filter (i : FlowInput) (hlen : 3 ≤ i.data.length) :
    (keptCols i).head? = some 0 ∧
    (∀ idx, idx ≠ 0 → (colVariances i).getD idx 0 < 1/10^10 →
        idx ∉ keptCols i) ∧
    keptFeatureNames i =
      (keptCols i).map (fun idx => (featureNames i).getD idx "") ∧
    (keptFeatureNames i).length = (keptCols i).length ∧
    (∀ row ∈ Xkept i, row.length = (keptCols i).length) ∧
    (keptFeatureNames i).head? = some "intercept" := by
  have hrowlen : 0 < ((XFull i).headD []).length := by
    cases hd : i.data with
    | nil => rw [hd] at hlen; simp at hlen
    | cons d rest =>
        have h7 := buildFullFeatureRow_length i d
        simp only [XFull, hd, List.map_cons, List.headD_cons]
        omega
  have hcv : 0 < (colVariances i).length := by
    rw [colVariances_length]
    exact hrowlen
  have hhead : (keptCols i).head? = some 0 := by
    cases hvl : colVariances i with
    | nil => rw [hvl] at hcv; simp at hcv
    | cons v tl =>
        unfold keptCols
        rw [hvl, List.enum_cons, List.filterMap_cons,
          if_pos (Or.inl rfl : (0 = 0 ∨ 1/10^10 < v))]
        rfl
  refine ⟨hhead, ?_, rfl, by simp [keptFeatureNames], ?_, ?_⟩
  · intro idx hidx hvar hmem
    obtain ⟨v, hget, hc⟩ := (mem_keptCols i idx).mp hmem
    rcases hc with rfl | hgt
    · exact hidx rfl
    · have : (colVariances i).getD idx 0 = v := by
        show ((colVariances i).get? idx).getD 0 = v
        rw [hget]
        rfl
      rw [this] at hvar
      linarith
  · intro row hrow
    obtain ⟨r, _, rfl⟩ := List.mem_map.mp hrow
    simp
  · unfold keptFeatureNames
    rw [List.head?_map, hhead]
    simp [featureNames]

/-- Witness for C4 on the sample input: the kept columns start with the
intercept, the constant `idealConditions` column (index 6, variance 0) is
dropped, and names stay aligned with columns. -/
theorem C4_variance_column_filter_witness :
    3 ≤ sampleFlowInput.data.length ∧
    (keptCols sampleFlowInput).head? = some 0 ∧
    (6 : ℕ) ≠ 0 ∧
    (colVariances sampleFlowInput).getD 6 0 < 1/10^10 ∧
    (6 : ℕ) ∉ keptCols sampleFlowInput ∧
    (keptFeatureNames sampleFlowInput).head? = some "intercept" := by
  have hlen : 3 ≤ sampleFlowInput.data.length := by norm_num [sampleFlowInput]
  have hv6 : (colVariances sampleFlowInput).getD 6 0 < 1/10^10 := by
    have hvar : colVariances sampleFlowInput =
        [0, 350/9, 50/3, 200/9, 350/9, 50/3, 0] := by
      unfold colVariances
      rw [XFull_sample]
      norm_num [listAvg, List.range_succ]
    rw [hvar]
    norm_num
  have h := C4_variance_column_filter sampleFlowInput hlen
  exact ⟨hlen, h.1, by norm_num, hv6,
    h.2.1 6 (by norm_num) hv6, h.2.2.2.2.2⟩

/-! ### C5 — non-negativity of predicted volumes -/

lemma round2_nonneg {q : ℚ} (h : 0 ≤ q) : 0 ≤ round2 q := by
  unfold round2
  have : (0 : ℤ) ≤ round (q * 100) := by
    rw [round_eq, Int.le_floor]
    push_cast
    linarith
  positivity

lemma listAvg_nonneg {l : List ℚ} (h : ∀ x ∈ l, 0 ≤ x) : 0 ≤ listAvg l := by
  unfold listAvg
  have := List.sum_nonneg h
  positivity

lemma primaryPredictions_nonneg (i : FlowInput) (m : RegModel) :
    ∀ p ∈ primaryPredictions i m, 0 ≤ p.predictedVolume := by
  intro p hp
  obtain ⟨q, _, rfl⟩ := List.mem_map.mp hp
  exact le_max_left _ _

lemma fallbackPredictions_nonneg (i : FlowInput) (m : RegModel) :
    ∀ p ∈ fallbackPredictions i m, 0 ≤ p.predictedVolume := by
  intro p hp
  obtain ⟨q, _, rfl⟩ := List.mem_map.mp hp
  exact le_max_left _ _

/-- **C5** (amended) — every prediction point of `getFlowPredictions` (primary
or fallback path) has `predictedVolume ≥ 0` unconditionally (the code clamps
with `Math.max(0, ·)`); every prediction point of
`getTraditionalFlowPredictions` has `predictedVolume ≥ 0` provided all
training volumes are non-negative — that path rounds the ideal-day average but
does not clamp it. -/
theorem C5_nonnegative_predicted_volumes (i : FlowInput) :
    (∀ p ∈ (getFlowPredictions i).predictions, 0 ≤ p.predictedVolume) ∧
    ((∀ d ∈ i.data, 0 ≤ d.volume) →
        ∀ p ∈ (getTraditionalFlowPredictions i).predictions,
          0 ≤ p.predictedVolume) := by
  constructor
  · unfold getFlowPredictions
    split_ifs with hlen
    · simp [insufficientResult]
    · cases hfull : fullModel i with
      | some m => exact primaryPredictions_nonneg i m
      | none =>
          cases hmin : minimalModel i with
          | none => simp [insufficientResult]
          | some m => exact fallbackPredictions_nonneg i m
  · intro hvol p hp
    unfold getTraditionalFlowPredictions at hp
    simp only at hp
    obtain ⟨day, _, rfl⟩ := List.mem_map.mp hp
    dsimp only
    split
    · next avg havg =>
        split_ifs with hideal
        · split_ifs at havg with hpos
          obtain rfl : listAvg ((i.data.filter fun d => d.idealConditions).map
              fun d => d.volume) = avg := by
            simpa using havg
          refine round2_nonneg (listAvg_nonneg ?_)
          intro x hx
          obtain ⟨d, hd, rfl⟩ := List.mem_map.mp hx
          exact hvol d (List.mem_of_mem_filter hd)
        · exact le_refl 0
    · exact le_refl 0

/-- A reachable input whose single (ideal-day) training volume is negative —
the collection API stores `volume ?? 0` without a sign check. -/
def negVolumeInput : FlowInput :=
  { data :=
      [{ date := 0, volume := -10, tempHigh := 50, tempLow := 20, tempDelta := 30,
         idealConditions := true, prevDayTempHigh := none, prevDayTempLow := none,
         sunshineHours := none, pressure := none, humidity := none, windSpeed := none }]
    correlations :=
      { sunshineHours := none, pressure := none, humidity := none, windSpeed := none }
    totalTaps := 0
    forecast :=
      [{ date := 1, tempHigh := some 50, tempLow := some 20, sunshineHours := none,
         pressure := none, humidity := none, windSpeed := none }]
    temperatureUnit := "fahrenheit" }

/-- Counterexample to C5 as stated: on `negVolumeInput` the traditional
predictor emits the prediction `-10 < 0` — its ideal-day average is rounded
but never clamped at zero. -/
theorem C5_counterexample_traditional_negative :
    ((getTraditionalFlowPredictions negVolumeInput).predictions.map
      fun p => p.predictedVolume) = [-10] ∧ ¬ (0 : ℚ) ≤ -10 := by
  constructor
  · have havg : listAvg [(-10 : ℚ)] = -10 := by norm_num [listAvg]
    have hround : round2 (-10 : ℚ) = -10 := by
      unfold round2
      rw [show ((-10 : ℚ)) * 100 = ((-1000 : ℤ) : ℚ) by norm_num, round_intCast]
      norm_num
    unfold getTraditionalFlowPredictions
    simp only [negVolumeInput, List.filter, List.map]
    norm_num [isSapFlowIdeal, havg, hround]
    decide
  · norm_num

/-- Witness for C5 (amended): the sample input has non-negative training
volumes and both predictors emit only non-negative predicted volumes on it. -/
theorem C5_nonnegative_predicted_volumes_witness :
    (∀ d ∈ sampleFlowInput.data, 0 ≤ d.volume) ∧
    (∀ p ∈ (getFlowPredictions sampleFlowInput).predictions,
        0 ≤ p.predictedVolume) ∧
    (∀ p ∈ (getTraditionalFlowPredictions sampleFlowInput).predictions,
        0 ≤ p.predictedVolume) := by
  have hvol : ∀ d ∈ sampleFlowInput.data, 0 ≤ d.volume := by
    intro d hd
    fin_cases hd <;> norm_num
  have h := C5_nonnegative_predicted_volumes sampleFlowInput
  exact ⟨hvol, h.1, h.2 hvol⟩

/-! ## Weather cache (`WeatherCacheRepository`, repository file lines 16-82) -/

/-- A normalized daily weather record, the shape produced by
`parseWeatherResponse` (WeatherService.js lines 49-68). -/
structure WRec where
  date : ℤ
  tempHigh : ℚ
  tempLow : ℚ
  tempAvg : ℚ
  precipitation : ℚ
  weatherCode : ℤ
deriving Repr, DecidableEq

/-- A cache document `{lat, lng, date, ...weatherData, fetchedAt}` (lines
53-59); the spread keeps the record's own fields, so the document's date is
`record.date`. -/
structure CachedDay where
  lat : ℚ
  lng : ℚ
  record : WRec
  fetchedAt : ℤ
deriving Repr, DecidableEq

/-- `getCacheKey` (lines 16-20): coordinates rounded to two decimals plus the
calendar date. -/
def getCacheKey (lat lng : ℚ) (date : ℤ) : ℚ × ℚ × ℤ :=
  (round2 lat, round2 lng, date)

/-- The Firestore-backed store as a map from cache key to document. -/
def CacheStore : Type := ℚ × ℚ × ℤ → Option CachedDay

/-- `getCached` (lines 25-45): point lookup; a hit is valid while its age
`now - fetchedAt` is within the max-age window — 24h in minutes for a date
strictly before today, 1h for today or later (`cacheAge > maxAge` is the
expiry test, compared here exactly in milliseconds). -/
def getCached (store : CacheStore) (now today : ℤ) (lat lng : ℚ)
    (date : ℤ) : Option CachedDay :=
  match store (getCacheKey lat lng date) with
  | none => none
  | some cached =>
      let maxAge : ℤ := if date < today then 24 * 60 else 60
      if maxAge * 60000 < now - cached.fetchedAt then none else some cached

/-- `cache` (lines 50-62): write the document under the rounded key with
`fetchedAt := now`. -/
def cachePut (store : CacheStore) (now : ℤ) (lat lng : ℚ) (date : ℤ)
    (weatherData : WRec) : CacheStore :=
  fun k =>
    if k = getCacheKey lat lng date then
      some { lat := lat, lng := lng, record := weatherData, fetchedAt := now }
    else store k

/-- **C6** — a record cached at time `t` for `(lat, lng, date)` is returned
intact by a read at time `t'` while the age `t' - t` is within the max-age
window (24 h for a date strictly before today, 1 h for today or later), and
the read misses (`none`) once the age exceeds that window. -/
theorem C6_cache_freshness_roundtrip (store : CacheStore) (t t' today : ℤ)
    (lat lng : ℚ) (date : ℤ) (rec : WRec) :
    ((date < today → t' - t ≤ 24 * 60 * 60000 →
        getCached (cachePut store t lat lng date rec) t' today lat lng date =
          some { lat := lat, lng := lng, record := rec, fetchedAt := t }) ∧
      (today ≤ date → t' - t ≤ 60 * 60000 →
        getCached (cachePut store t lat lng date rec) t' today lat lng date =
          some { lat := lat, lng := lng, record := rec, fetchedAt := t })) ∧
    ((date < today → 24 * 60 * 60000 < t' - t →
        getCached (cachePut store t lat lng date rec) t' today lat lng date =
          none) ∧
      (today ≤ date → 60 * 60000 < t' - t →
        getCached (cachePut store t lat lng date rec) t' today lat lng date =
          none)) := by
  have hkey : (cachePut store t lat lng date rec) (getCacheKey lat lng date) =
      some { lat := lat, lng := lng, record := rec, fetchedAt := t } := by
    unfold cachePut
    rw [if_pos rfl]
  constructor
  · constructor
    · intro hh hage
      unfold getCached
      rw [hkey]
      simp only [if_pos hh]
      rw [if_neg (by omega)]
    · intro hh hage
      unfold getCached
      rw [hkey]
      simp only [if_neg (by omega : ¬ date < today)]
      rw [if_neg (by omega)]
  · constructor
    · intro hh hage
      unfold getCached
      rw [hkey]
      simp only [if_pos hh]
      rw [if_pos (by omega)]
    · intro hh hage
      unfold getCached
      rw [hkey]
      simp only [if_neg (by omega : ¬ date < today)]
      rw [if_pos (by omega)]

/-- Witness for C6: caching a historical record (date 5, today 10) at `t = 0`
and reading at `t' = 1000` (age well inside 24 h) returns it; reading the same
record at `t' = 90000000` (age beyond 24 h) misses. -/
theorem C6_cache_freshness_roundtrip_witness :
    ((5 : ℤ) < 10 ∧ (1000 : ℤ) - 0 ≤ 24 * 60 * 60000 ∧
      getCached (cachePut (fun _ => none) 0 1 2 5
          { date := 5, tempHigh := 50, tempLow := 20, tempAvg := 35,
            precipitation := 0, weatherCode := 0 }) 1000 10 1 2 5 =
        some { lat := 1, lng := 2,
               record := { date := 5, tempHigh := 50, tempLow := 20,
                           tempAvg := 35, precipitation := 0, weatherCode := 0 },
               fetchedAt := 0 }) ∧
    ((24 : ℤ) * 60 * 60000 < 90000000 - 0 ∧
      getCached (cachePut (fun _ => none) 0 1 2 5
          { date := 5, tempHigh := 50, tempLow := 20, tempAvg := 35,
            precipitation := 0, weatherCode := 0 }) 90000000 10 1 2 5 = none) := by
  have h1 := (C6_cache_freshness_roundtrip (fun _ => none) 0 1000 10 1 2 5
    { date := 5, tempHigh := 50, tempLow := 20, tempAvg := 35,
      precipitation := 0, weatherCode := 0 }).1.1 (by omega) (by omega)
  have h2 := (C6_cache_freshness_roundtrip (fun _ => none) 0 90000000 10 1 2 5
    { date := 5, tempHigh := 50, tempLow := 20, tempAvg := 35,
      precipitation := 0, weatherCode := 0 }).2.1 (by omega) (by omega)
  exact ⟨⟨by omega, by omega, h1⟩, ⟨by omega, h2⟩⟩

/-! ## Computation coalescing (`getDetailedWeatherCorrelation`, lines 37-45
and 384-403)

Promises and results are tracked by identity tags (`ℕ`); the synchronous
prologue of a call (cache check → pending check → registration) runs
atomically on the JS event loop, as does the settlement (result-cache write
and the `finally` deletion of the pending entry). -/

/-- The module-level mutable state (lines 39, 41): the 90-second TTL result
cache and the in-flight promise map, per key. -/
structure CoalesceState (κ : Type) where
  cacheEntry : κ → Option (ℕ × ℤ)
  pending : κ → Option ℕ

/-- `DETAILED_CORRELATION_CACHE_TTL_MS` (line 38). -/
def detailedCorrelationCacheTTL : ℤ := 90 * 1000

/-- What one caller observes: a fresh cached result returned immediately, an
in-flight promise joined, or a newly started computation. -/
inductive CallOutcome
  | cachedHit (resultId : ℕ)
  | joined (promiseId : ℕ)
  | started (promiseId : ℕ)
deriving Repr, DecidableEq

/-- The synchronous prologue of `getDetailedWeatherCorrelation` (lines
385-397): return the cached result if `expiresAt > Date.now()`; else join an
in-flight promise for the same key; else register a fresh promise. -/
def callStep {κ : Type} [DecidableEq κ] (s : CoalesceState κ) (k : κ) (now : ℤ)
    (freshId : ℕ) : CallOutcome × CoalesceState κ :=
  let hit : Option ℕ :=
    match s.cacheEntry k with
    | some (rid, expiresAt) => if now < expiresAt then some rid else none
    | none => none
  match hit with
  | some rid => (.cachedHit rid, s)
  | none =>
      match s.pending k with
      | some pid => (.joined pid, s)
      | none =>
          (.started freshId,
            { s with pending := fun k' => if k' = k then some freshId else s.pending k' })

/-- Settlement of the started computation: on success
`_computeDetailedWeatherCorrelation` stores the result with a fresh 90 s
expiry (lines 581-584); the `finally` (line 401) removes the pending
registration whether the promise fulfilled or rejected. -/
def settleStep {κ : Type} [DecidableEq κ] (s : CoalesceState κ) (k : κ)
    (success : Bool) (rid : ℕ) (tEnd : ℤ) : CoalesceState κ :=
  { cacheEntry :=
      if success then
        fun k' => if k' = k then some (rid, tEnd + detailedCorrelationCacheTTL)
          else s.cacheEntry k'
      else s.cacheEntry
    pending := fun k' => if k' = k then none else s.pending k' }

/-- An event of the concurrent system: a caller arriving, or the settlement of
the in-flight computation for a key. -/
inductive CoEvent (κ : Type)
  | call (k : κ) (now : ℤ)
  | settle (k : κ) (success : Bool) (rid : ℕ) (tEnd : ℤ)

/-- The whole system state plus the ghost count of computations currently in
progress per key. -/
structure CoSys (κ : Type) where
  st : CoalesceState κ
  freshId : ℕ
  inProgress : κ → ℕ

/-- One atomic system step.  A settle event only fires for a key with a
registered in-flight computation (in the implementation the `finally` belongs
to exactly that promise). -/
def coStep {κ : Type} [DecidableEq κ] (s : CoSys κ) : CoEvent κ → CoSys κ
  | .call k now =>
      let r := callStep s.st k now s.freshId
      match r.1 with
      | .started _ =>
          { st := r.2, freshId := s.freshId + 1
            inProgress := fun k' =>
              if k' = k then s.inProgress k' + 1 else s.inProgress k' }
      | _ => { s with st := r.2 }
  | .settle k success rid tEnd =>
      match s.st.pending k with
      | none => s
      | some _ =>
          { st := settleStep s.st k success rid tEnd
            freshId := s.freshId
            inProgress := fun k' =>
              if k' = k then s.inProgress k' - 1 else s.inProgress k' }

/-- The initial state: empty cache, nothing pending, nothing in progress. -/
def coInit (κ : Type) : CoSys κ :=
  { st := { cacheEntry := fun _ => none, pending := fun _ => none }
    freshId := 0
    inProgress := fun _ => 0 }

/-- Execute a sequence of events from the initial state. -/
def coRun {κ : Type} [DecidableEq κ] (events : List (CoEvent κ)) : CoSys κ :=
  events.foldl coStep (coInit κ)

/-- Staleness of the TTL cache for a key at a time: no entry, or an entry
whose expiry has passed (`expiresAt > Date.now()` fails). -/
def staleCache {κ : Type} (st : CoalesceState κ) (k : κ) (now : ℤ) : Prop :=
  match st.cacheEntry k with
  | some p => p.2 ≤ now
  | none => True

/-- A call that finds a fresh cache entry returns it and leaves the state
untouched. -/
lemma callStep_cachedHit {κ : Type} [DecidableEq κ] (st : CoalesceState κ)
    (k : κ) (now : ℤ) (f rid : ℕ) (exp : ℤ)
    (hc : st.cacheEntry k = some (rid, exp)) (hfresh : now < exp) :
    callStep st k now f = (.cachedHit rid, st) := by
  unfold callStep
  rw [hc]
  simp [hfresh]

/-- A call that misses the TTL cache but finds an in-flight promise joins that
promise and leaves the state untouched. -/
lemma callStep_joined {κ : Type} [DecidableEq κ] (st : CoalesceState κ)
    (k : κ) (now : ℤ) (f pid : ℕ)
    (hstale : staleCache st k now) (hp : st.pending k = some pid) :
    callStep st k now f = (.joined pid, st) := by
  unfold callStep
  unfold staleCache at hstale
  cases hc : st.cacheEntry k with
  | some p =>
      rw [hc] at hstale
      simp only
      rw [if_neg (by omega), hp]
  | none =>
      simp only
      rw [hp]

/-- A call that misses both the cache and the pending map registers a fresh
promise for its key. -/
lemma callStep_started {κ : Type} [DecidableEq κ] (st : CoalesceState κ)
    (k : κ) (now : ℤ) (f : ℕ)
    (hstale : staleCache st k now) (hp : st.pending k = none) :
    callStep st k now f =
      (.started f,
        { st with pending := fun k' => if k' = k then some f else st.pending k' }) := by
  unfold callStep
  unfold staleCache at hstale
  cases hc : st.cacheEntry k with
  | some p =>
      rw [hc] at hstale
      simp only
      rw [if_neg (by omega), hp]
  | none =>
      simp only
      rw [hp]

/-- The in-progress ghost count always mirrors the pending map: a key has a
computation in progress iff a promise is registered for it. -/
lemma coStep_invariant {κ : Type} [DecidableEq κ] (s : CoSys κ)
    (hinv : ∀ k, s.inProgress k = if (s.st.pending k).isSome then 1 else 0)
    (e : CoEvent κ) :
    ∀ k, (coStep s e).inProgress k =
      if ((coStep s e).st.pending k).isSome then 1 else 0 := by
  intro k
  cases e with
  | call k' now =>
      by_cases hfresh : ∃ rid exp, s.st.cacheEntry k' = some (rid, exp) ∧ now < exp
      · obtain ⟨rid, exp, hc, hlt⟩ := hfresh
        unfold coStep
        dsimp only
        rw [callStep_cachedHit s.st k' now s.freshId rid exp hc hlt]
        exact hinv k
      · have hstale : staleCache s.st k' now := by
          unfold staleCache
          cases hc : s.st.cacheEntry k' with
          | some p =>
              by_contra hlt
              exact hfresh ⟨p.1, p.2, by rw [hc], by omega⟩
          | none => trivial
        cases hp : s.st.pending k' with
        | some pid =>
            unfold coStep
            dsimp only
            rw [callStep_joined s.st k' now s.freshId pid hstale hp]
            exact hinv k
        | none =>
            unfold coStep
            dsimp only
            rw [callStep_started s.st k' now s.freshId hstale hp]
            dsimp only
            by_cases hk : k = k'
            · subst hk
              simp [hp, hinv k]
            · rw [if_neg hk]
              have := hinv k
              simpa [hk] using this
  | settle k' success rid tEnd =>
      unfold coStep
      dsimp only
      cases hp : s.st.pending k' with
      | none => simpa using hinv k
      | some pid =>
          simp only [settleStep]
          by_cases hk : k = k'
          · subst hk
            simp [hp, hinv k]
          · rw [if_neg hk]
            have := hinv k
            simpa [hk] using this

lemma coRun_invariant {κ : Type} [DecidableEq κ] (events : List (CoEvent κ)) :
    ∀ k, (coRun events).inProgress k =
      if ((coRun events).st.pending k).isSome then 1 else 0 := by
  unfold coRun
  generalize hs : coInit κ = s0
  have h0 : ∀ k, s0.inProgress k = if (s0.st.pending k).isSome then 1 else 0 := by
    subst hs
    intro k
    rfl
  clear hs
  induction events generalizing s0 with
  | nil => exact h0
  | cons e rest ih =>
      simp only [List.foldl_cons]
      exact ih (coStep s0 e) (coStep_invariant s0 h0 e)

/-- **C7** — per key: after any event sequence at most one computation is in
progress; a call that finds a cache entry younger than the TTL returns it with
no state change (no recomputation); a call that finds an in-flight computation
joins that same promise with no state change; and settlement removes the
pending registration whether the computation succeeded or failed. -/
theorem C7_coalescing_single_flight {κ : Type} [DecidableEq κ]
    (events : List (CoEvent κ)) (k : κ) :
    ((coRun events).inProgress k ≤ 1) ∧
    (∀ (st : CoalesceState κ) (rid : ℕ) (exp now : ℤ) (f : ℕ),
        st.cacheEntry k = some (rid, exp) → now < exp →
        callStep st k now f = (.cachedHit rid, st)) ∧
    (∀ (st : CoalesceState κ) (pid f : ℕ) (now : ℤ),
        staleCache st k now → st.pending k = some pid →
        callStep st k now f = (.joined pid, st)) ∧
    (∀ (st : CoalesceState κ) (success : Bool) (rid : ℕ) (tEnd : ℤ),
        (settleStep st k success rid tEnd).pending k = none) := by
  refine ⟨?_, ?_, ?_, ?_⟩
  · rw [coRun_invariant events k]
    split_ifs <;> omega
  · intro st rid exp now f hc hfresh
    exact callStep_cachedHit st k now f rid exp hc hfresh
  · intro st pid f now hstale hp
    exact callStep_joined st k now f pid hstale hp
  · intro st success rid tEnd
    unfold settleStep
    simp

/-- Witness for C7 over concrete keys `ℕ`: a call/call/settle/call trace keeps
at most one computation in flight for key 0; a fresh cache entry `(7, exp 100)`
read at time 50 is returned with no state change; a pending promise `4` is
joined with no state change; and settling removes the pending entry on both
success and failure. -/
theorem C7_coalescing_single_flight_witness :
    ((coRun (κ := ℕ) [CoEvent.call 0 0, CoEvent.call 0 1,
        CoEvent.settle 0 true 5 2, CoEvent.call 0 3]).inProgress 0 ≤ 1) ∧
    callStep (κ := ℕ)
        ⟨fun k => if k = 0 then some (7, 100) else none, fun _ => none⟩ 0 50 9 =
      (.cachedHit 7,
        ⟨fun k => if k = 0 then some (7, 100) else none, fun _ => none⟩) ∧
    callStep (κ := ℕ)
        ⟨fun _ => none, fun k => if k = 0 then some 4 else none⟩ 0 50 9 =
      (.joined 4, ⟨fun _ => none, fun k => if k = 0 then some 4 else none⟩) ∧
    (settleStep (κ := ℕ)
        ⟨fun _ => none, fun k => if k = 0 then some 4 else none⟩ 0 true 5 2).pending
        0 = none ∧
    (settleStep (κ := ℕ)
        ⟨fun _ => none, fun k => if k = 0 then some 4 else none⟩ 0 false 5 2).pending
        0 = none := by
  have h := C7_coalescing_single_flight (κ := ℕ)
    [CoEvent.call 0 0, CoEvent.call 0 1, CoEvent.settle 0 true 5 2,
      CoEvent.call 0 3] 0
  exact ⟨h.1,
    h.2.1 _ 7 100 50 9 (by simp) (by omega),
    h.2.2.1 _ 4 9 50 (by simp [staleCache]) (by simp),
    h.2.2.2 _ true 5 2,
    h.2.2.2 _ false 5 2⟩

/-! ## Range reads (`WeatherService.getWeatherRange`, lines 161-209) -/

/-- The day-by-day loop `while (current <= end)` over `[start, end]`. -/
def dateRange (startDate endDate : ℤ) : List ℤ :=
  (List.range (endDate + 1 - startDate).toNat).map fun j : ℕ => startDate + (j : ℤ)

/-- `getCachedRange` (repository lines 67-82): one point lookup per date of
the range, keeping the hits. -/
def getCachedRange (store : CacheStore) (now today : ℤ) (lat lng : ℚ)
    (startDate endDate : ℤ) : List CachedDay :=
  (dateRange startDate endDate).filterMap fun d =>
    getCached store now today lat lng d

/-- The near-term provider's rolling window for the call at lines 180-183
(`past_days: 30, forecast_days: 7`): the 37 dates `[today-30, today+6]`. -/
def fetchWindow (today : ℤ) : List ℤ :=
  (List.range 37).map fun j : ℕ => today - 30 + (j : ℤ)

/-- `fetchFromOpenMeteo` + `parseWeatherResponse` for that call: one daily
record per date of the provider window, values taken from the upstream
oracle. -/
def nearTermFetch (upstream : ℤ → WRec) (today : ℤ) : List WRec :=
  (fetchWindow today).map fun d => { upstream d with date := d }

/-- `fToC` inside `dayToCelsius` (line 119). -/
def fToC (f : ℚ) : ℚ := (round ((f - 32) * (5/9) * 10) : ℤ) / 10

/-- `dayToCelsius` (lines 117-126). -/
def dayToCelsius (day : WRec) : WRec :=
  { day with
    tempHigh := fToC day.tempHigh
    tempLow := fToC day.tempLow
    tempAvg := fToC day.tempAvg }

/-- `.sort((a, b) => a.date.localeCompare(b.date))` — sort by date ascending
(ISO date strings compare lexicographically, i.e. chronologically). -/
def sortByDate (l : List WRec) : List WRec :=
  l.mergeSort fun a b => a.date ≤ b.date

/-- The `cached` hits of `getWeatherRange` (line 162), projected to their
daily-record part. -/
def rangeCacheHits (store : CacheStore) (now today : ℤ) (lat lng : ℚ)
    (startDate endDate : ℤ) : List WRec :=
  (getCachedRange store now today lat lng startDate endDate).map fun c => c.record

/-- The `missingDates` accumulated by the `while` loop (lines 164-176). -/
def rangeMissingDates (store : CacheStore) (now today : ℤ) (lat lng : ℚ)
    (startDate endDate : ℤ) : List ℤ :=
  (dateRange startDate endDate).filter fun d =>
    d ∉ (rangeCacheHits store now today lat lng startDate endDate).map
      fun c => c.date

/-- `getWeatherRange` (lines 161-209), over already-resolved upstream data:
collect the cache hits for `[start, end]`; if any date is missing issue the
single near-term fetch (30 past days + 7 forecast days), merge the
not-already-cached fetched days with the hits, restrict to the requested
window and sort by date; with no misses return the sorted hits. -/
def getWeatherRange (store : CacheStore) (now today : ℤ) (upstream : ℤ → WRec)
    (lat lng : ℚ) (startDate endDate : ℤ) (temperatureUnit : String) :
    List WRec :=
  let cached := rangeCacheHits store now today lat lng startDate endDate
  let cachedDates := cached.map fun c => c.date
  let missingDates := rangeMissingDates store now today lat lng startDate endDate
  let result :=
    if missingDates = [] then sortByDate cached
    else
      let days := nearTermFetch upstream today
      let allDays := cached ++ days.filter fun day => day.date ∉ cachedDates
      sortByDate (allDays.filter fun d => startDate ≤ d.date ∧ d.date ≤ endDate)
  if temperatureUnit = "celsius" then result.map dayToCelsius else result

/-! ### Facts about range reads -/

lemma mem_dateRange {startDate endDate d : ℤ} :
    d ∈ dateRange startDate endDate ↔ startDate ≤ d ∧ d ≤ endDate := by
  unfold dateRange
  simp only [List.mem_map, List.mem_range]
  constructor
  · rintro ⟨j, hj, rfl⟩
    omega
  · rintro ⟨h1, h2⟩
    exact ⟨(d - startDate).toNat, by omega, by omega⟩

lemma mem_fetchWindow {today d : ℤ} :
    d ∈ fetchWindow today ↔ today - 30 ≤ d ∧ d ≤ today + 6 := by
  unfold fetchWindow
  simp only [List.mem_map, List.mem_range]
  constructor
  · rintro ⟨j, hj, rfl⟩
    omega
  · rintro ⟨h1, h2⟩
    exact ⟨(d - (today - 30)).toNat, by omega, by omega⟩

lemma nearTermFetch_date_bounds (upstream : ℤ → WRec) (today : ℤ) :
    ∀ r ∈ nearTermFetch upstream today, today - 30 ≤ r.date ∧ r.date ≤ today + 6 := by
  intro r hr
  obtain ⟨d, hd, rfl⟩ := List.mem_map.mp hr
  simpa using mem_fetchWindow.mp hd

lemma nearTermFetch_covers (upstream : ℤ → WRec) (today d : ℤ)
    (h1 : today - 30 ≤ d) (h2 : d ≤ today + 6) :
    ∃ r ∈ nearTermFetch upstream today, r.date = d := by
  refine ⟨{ upstream d with date := d }, ?_, rfl⟩
  exact List.mem_map.mpr ⟨d, mem_fetchWindow.mpr ⟨h1, h2⟩, rfl⟩

/-- A store is well-keyed when every document sits under the key of its own
date — the invariant `cache(lat, lng, day.date, day)` maintains at every call
site (WeatherService.js lines 148-149, 187-189). -/
def WellKeyed (store : CacheStore) : Prop :=
  ∀ k c, store k = some c → c.record.date = k.2.2

lemma getCached_date {store : CacheStore} (hwk : WellKeyed store)
    {now today : ℤ} {lat lng : ℚ} {d : ℤ} {c : CachedDay}
    (h : getCached store now today lat lng d = some c) : c.record.date = d := by
  unfold getCached at h
  cases hs : store (getCacheKey lat lng d) with
  | none => rw [hs] at h; exact absurd h (by simp)
  | some c' =>
      rw [hs] at h
      simp only at h
      split_ifs at h <;>
        first
          | exact Option.noConfusion h
          | (obtain rfl : c' = c := Option.some.inj h
             exact hwk _ _ hs)

lemma rangeCacheHits_date_bounds {store : CacheStore} (hwk : WellKeyed store)
    (now today : ℤ) (lat lng : ℚ) (startDate endDate : ℤ) :
    ∀ r ∈ rangeCacheHits store now today lat lng startDate endDate,
      startDate ≤ r.date ∧ r.date ≤ endDate := by
  intro r hr
  obtain ⟨c, hc, rfl⟩ := List.mem_map.mp hr
  obtain ⟨d, hd, hcd⟩ := List.mem_filterMap.mp hc
  rw [getCached_date hwk hcd]
  exact mem_dateRange.mp hd

lemma rangeCacheHits_covers {store : CacheStore} (hwk : WellKeyed store)
    {now today : ℤ} {lat lng : ℚ} {startDate endDate d : ℤ} {c : CachedDay}
    (hd1 : startDate ≤ d) (hd2 : d ≤ endDate)
    (hhit : getCached store now today lat lng d = some c) :
    ∃ r ∈ rangeCacheHits store now today lat lng startDate endDate,
      r.date = d := by
  refine ⟨c.record, ?_, getCached_date hwk hhit⟩
  exact List.mem_map.mpr ⟨c,
    List.mem_filterMap.mpr ⟨d, mem_dateRange.mpr ⟨hd1, hd2⟩, hhit⟩, rfl⟩

lemma sortByDate_sorted (l : List WRec) :
    (sortByDate l).Sorted fun a b => a.date ≤ b.date := by
  have h := @List.sorted_mergeSort WRec (fun a b : WRec => decide (a.date ≤ b.date))
    (fun a b c h1 h2 => by simp at *; omega)
    (fun a b => by simp; omega) l
  simpa [sortByDate, List.Sorted] using h

lemma mem_sortByDate {l : List WRec} {a : WRec} : a ∈ sortByDate l ↔ a ∈ l := by
  simp [sortByDate, List.mem_mergeSort]

/-- **C8** (amended) — `getWeatherRange` performs no 30-day partition and
makes no archive call: on any miss it issues the single near-term fetch
covering `[today-30, today+6]`.  For a well-keyed store the result is sorted
by date ascending, restricted to the requested `[start, end]` window, contains
every requested date with a fresh cache hit, and — whenever any date was
missing — every requested date inside the near-term provider window; requested
dates older than that window are simply absent. -/
theorem C8_range_reassembly (store : CacheStore) (now today : ℤ)
    (upstream : ℤ → WRec) (lat lng : ℚ) (startDate endDate : ℤ)
    (unit : String) (hwk : WellKeyed store) :
    ((getWeatherRange store now today upstream lat lng startDate endDate
        unit).Sorted fun a b => a.date ≤ b.date) ∧
    (∀ r ∈ getWeatherRange store now today upstream lat lng startDate endDate
        unit, startDate ≤ r.date ∧ r.date ≤ endDate) ∧
    (∀ d c, startDate ≤ d → d ≤ endDate →
        getCached store now today lat lng d = some c →
        ∃ r ∈ getWeatherRange store now today upstream lat lng startDate
          endDate unit, r.date = d) ∧
    (rangeMissingDates store now today lat lng startDate endDate ≠ [] →
      ∀ d, startDate ≤ d → d ≤ endDate → today - 30 ≤ d → d ≤ today + 6 →
        ∃ r ∈ getWeatherRange store now today upstream lat lng startDate
          endDate unit, r.date = d) := by
  have hdate : ∀ day : WRec, (dayToCelsius day).date = day.date := by
    intro day
    rfl
  set cached := rangeCacheHits store now today lat lng startDate endDate
    with hcached
  set B : List WRec :=
    (if rangeMissingDates store now today lat lng startDate endDate = []
      then sortByDate cached
      else sortByDate ((cached ++ (nearTermFetch upstream today).filter
          fun day => day.date ∉ cached.map fun c => c.date).filter
        fun d => startDate ≤ d.date ∧ d.date ≤ endDate)) with hB
  have hEq : getWeatherRange store now today upstream lat lng startDate endDate
      unit = if unit = "celsius" then B.map dayToCelsius else B := rfl
  have hBsorted : B.Sorted fun a b => a.date ≤ b.date := by
    rw [hB]
    split_ifs <;> exact sortByDate_sorted _
  have hBrange : ∀ r ∈ B, startDate ≤ r.date ∧ r.date ≤ endDate := by
    rw [hB]
    split_ifs with hm
    · intro r hr
      exact rangeCacheHits_date_bounds hwk now today lat lng startDate endDate
        r (mem_sortByDate.mp hr)
    · intro r hr
      have := (List.mem_filter.mp (mem_sortByDate.mp hr)).2
      simpa using this
  have hBcache : ∀ d c, startDate ≤ d → d ≤ endDate →
      getCached store now today lat lng d = some c →
      ∃ r ∈ B, r.date = d := by
    intro d c hd1 hd2 hhit
    obtain ⟨r, hrmem, hrd⟩ :=
      rangeCacheHits_covers hwk hd1 hd2 hhit
    rw [hB]
    split_ifs with hm
    · exact ⟨r, mem_sortByDate.mpr hrmem, hrd⟩
    · refine ⟨r, mem_sortByDate.mpr ?_, hrd⟩
      refine List.mem_filter.mpr ⟨List.mem_append_left _ hrmem, ?_⟩
      simp only [decide_eq_true_eq]
      omega
  have hBwindow : rangeMissingDates store now today lat lng startDate endDate ≠ [] →
      ∀ d, startDate ≤ d → d ≤ endDate → today - 30 ≤ d → d ≤ today + 6 →
        ∃ r ∈ B, r.date = d := by
    intro hmiss d hd1 hd2 hw1 hw2
    rw [hB, if_neg hmiss]
    by_cases hcd : d ∈ cached.map fun c => c.date
    · obtain ⟨r, hrmem, hrd⟩ := List.mem_map.mp hcd
      refine ⟨r, mem_sortByDate.mpr ?_, hrd⟩
      refine List.mem_filter.mpr ⟨List.mem_append_left _ hrmem, ?_⟩
      simp only [decide_eq_true_eq]
      omega
    · obtain ⟨r, hrmem, hrd⟩ := nearTermFetch_covers upstream today d hw1 hw2
      refine ⟨r, mem_sortByDate.mpr ?_, hrd⟩
      refine List.mem_filter.mpr ⟨List.mem_append_right _ ?_, ?_⟩
      · refine List.mem_filter.mpr ⟨hrmem, ?_⟩
        rw [hrd]
        simpa using hcd
      · simp only [decide_eq_true_eq]
        omega
  rw [hEq]
  by_cases hcel : unit = "celsius"
  · rw [if_pos hcel]
    refine ⟨?_, ?_, ?_, ?_⟩
    · rw [List.Sorted, List.pairwise_map]
      simpa [hdate] using hBsorted
    · intro r hr
      obtain ⟨r', hr', rfl⟩ := List.mem_map.mp hr
      rw [hdate]
      exact hBrange r' hr'
    · intro d c hd1 hd2 hhit
      obtain ⟨r, hrmem, hrd⟩ := hBcache d c hd1 hd2 hhit
      exact ⟨dayToCelsius r, List.mem_map.mpr ⟨r, hrmem, rfl⟩, by rw [hdate, hrd]⟩
    · intro hmiss d hd1 hd2 hw1 hw2
      obtain ⟨r, hrmem, hrd⟩ := hBwindow hmiss d hd1 hd2 hw1 hw2
      exact ⟨dayToCelsius r, List.mem_map.mpr ⟨r, hrmem, rfl⟩, by rw [hdate, hrd]⟩
  · rw [if_neg hcel]
    exact ⟨hBsorted, hBrange, hBcache, hBwindow⟩

/-- A flat upstream oracle used to exercise range reads. -/
def flatOracle : ℤ → WRec := fun d =>
  { date := d, tempHigh := 1, tempLow := 0, tempAvg := 1/2,
    precipitation := 0, weatherCode := 0 }

/-- Counterexample to C8 as stated: a request for a single date 45 days in the
past (well beyond the 30-day cutoff) against an empty cache is a miss, yet no
archive fetch exists — the one near-term fetch covers only `[today-30,
today+6]`, so the result is empty instead of containing the archived day. -/
theorem C8_counterexample_archive_dates_absent :
    ((-45 : ℤ) < 0 - 30) ∧
    rangeMissingDates (fun _ => none) 0 0 0 0 (-45) (-45) = [-45] ∧
    getWeatherRange (fun _ => none) 0 0 flatOracle 0 0 (-45) (-45)
      "fahrenheit" = [] := by
  have hcr : rangeCacheHits (fun _ => none) 0 0 0 0 (-45) (-45) = [] := rfl
  refine ⟨by omega, by decide, ?_⟩
  have hEq : getWeatherRange (fun _ => none) 0 0 flatOracle 0 0 (-45) (-45)
      "fahrenheit" =
      if rangeMissingDates (fun _ => none) 0 0 0 0 (-45) (-45) = []
      then sortByDate (rangeCacheHits (fun _ => none) 0 0 0 0 (-45) (-45))
      else sortByDate (((rangeCacheHits (fun _ => none) 0 0 0 0 (-45) (-45)) ++
          (nearTermFetch flatOracle 0).filter fun day =>
            day.date ∉ (rangeCacheHits (fun _ => none) 0 0 0 0 (-45)
              (-45)).map fun c => c.date).filter
        fun d => (-45 : ℤ) ≤ d.date ∧ d.date ≤ -45) := rfl
  rw [hEq, if_neg (by decide), hcr]
  have hfil : ((([] : List WRec) ++ (nearTermFetch flatOracle 0).filter
      fun day => day.date ∉ (([] : List WRec).map fun c => c.date)).filter
        fun d => (-45 : ℤ) ≤ d.date ∧ d.date ≤ -45) = [] := by
    rw [List.filter_eq_nil_iff]
    intro a ha
    have hmem : a ∈ (nearTermFetch flatOracle 0).filter
        fun day => day.date ∉ (([] : List WRec).map fun c => c.date) := by
      simpa using ha
    have hb := nearTermFetch_date_bounds flatOracle 0 a
      (List.mem_filter.mp hmem).1
    simp only [decide_eq_true_eq, not_and]
    omega
  rw [hfil]
  simp [sortByDate]

/-- Witness for the amended C8: with an empty (hence well-keyed) cache and the
range `[-2, 0]` around `today = 0`, all three dates are missing, the near-term
fetch supplies them, date 0 appears in the result, and the result is sorted by
date. -/
theorem C8_range_reassembly_witness :
    WellKeyed (fun _ => none) ∧
    rangeMissingDates (fun _ => none) 0 0 0 0 (-2) 0 ≠ [] ∧
    (∃ r ∈ getWeatherRange (fun _ => none) 0 0 flatOracle 0 0 (-2) 0
        "fahrenheit", r.date = 0) ∧
    ((getWeatherRange (fun _ => none) 0 0 flatOracle 0 0 (-2) 0
        "fahrenheit").Sorted fun a b => a.date ≤ b.date) := by
  have hwk : WellKeyed (fun _ => none) := fun k c h => Option.noConfusion h
  have hmiss : rangeMissingDates (fun _ => none) 0 0 0 0 (-2) 0 ≠ [] := by decide
  have h := C8_range_reassembly (fun _ => none) 0 0 flatOracle 0 0 (-2) 0
    "fahrenheit" hwk
  exact ⟨hwk, hmiss,
    h.2.2.2 hmiss 0 (by omega) (by omega) (by omega) (by omega), h.1⟩

/-! ## Upstream fetch (`fetchFromOpenMeteo`, WeatherService.js lines 13-44) -/

/-- One HTTP response as the fetch sees it: `response.ok`, `response.status`,
and the parsed daily payload for an OK response. -/
structure HttpResp where
  ok : Bool
  status : ℕ
  days : List WRec
deriving Repr, DecidableEq

/-- `fetchFromOpenMeteo` (lines 13-44) against a network oracle answering the
`n`-th HTTP request of this call.  The source issues exactly one request
(line 37) and throws `Weather API error: <status>` on any non-OK response
(lines 39-41); there is no retry and no backoff of any kind.  The second
component counts the requests issued. -/
def fetchFromOpenMeteo (net : ℕ → HttpResp) : Except ℕ (List WRec) × ℕ :=
  let response := net 0
  if response.ok then (.ok response.days, 1) else (.error response.status, 1)

/-- A network that rate-limits the first request (HTTP 429) and would succeed
on a retry. -/
def rateLimitedOnce : ℕ → HttpResp := fun n =>
  if n = 0 then { ok := false, status := 429, days := [] }
  else { ok := true, status := 200, days := [] }

/-- Counterexample to C9 as stated: on a single 429 followed by an available
successful response, the fetch makes exactly one request and propagates the
error — no retry is ever attempted (the claimed one-retry-after-2.5s policy
does not exist in the code). -/
theorem C9_counterexample_no_retry :
    (rateLimitedOnce 0).status = 429 ∧ (rateLimitedOnce 1).ok = true ∧
    fetchFromOpenMeteo rateLimitedOnce = (.error 429, 1) ∧
    (fetchFromOpenMeteo rateLimitedOnce).2 ≠ 2 := by
  refine ⟨rfl, rfl, rfl, by decide⟩

/-- **C9** (amended) — every call of `fetchFromOpenMeteo` issues exactly one
upstream request; an OK response returns the parsed payload, and any non-OK
response — HTTP 429 included — propagates immediately as a
`Weather API error: <status>` failure, with no retry. -/
theorem C9_fetch_single_request_no_retry (net : ℕ → HttpResp) :
    (fetchFromOpenMeteo net).2 = 1 ∧
    ((net 0).ok = true → fetchFromOpenMeteo net = (.ok (net 0).days, 1)) ∧
    ((net 0).ok = false → fetchFromOpenMeteo net = (.error (net 0).status, 1)) := by
  unfold fetchFromOpenMeteo
  cases h : (net 0).ok <;> simp [h]

/-- Witness for the amended C9: the rate-limited network's first response is
non-OK, and the fetch returns the 429 error after exactly one request. -/
theorem C9_fetch_single_request_no_retry_witness :
    (rateLimitedOnce 0).ok = false ∧
    fetchFromOpenMeteo rateLimitedOnce = (.error (rateLimitedOnce 0).status, 1) ∧
    (fetchFromOpenMeteo rateLimitedOnce).2 = 1 := by
  have h := C9_fetch_single_request_no_retry rateLimitedOnce
  exact ⟨rfl, h.2.2 rfl, h.1⟩

end SapMap
